import Mathlib

/-!
Verification development for the asrcpp-gigam3 speech-to-text server.

We give a shallow embedding of the streaming core: the voice-activity
detector's segmentation state machine (src/vad.cpp), the per-connection
session state machine (src/handler.cpp), the recognizer pool's slot
bookkeeping (src/recognizer.cpp), the resampler buffer sizing and WAV
decoding guards (src/audio.cpp), and the WebSocket text-message dispatch
(src/server.cpp).  External collaborators (the ONNX VAD graph, the
sherpa-onnx recognizer, libsamplerate's kernel, dr_wav's byte parser,
float square root) are modelled as pure oracle functions; machine floats
are modelled by exact rationals; wall-clock timestamps are not modelled.
-/

namespace Asr

/-- Truncation toward zero, modelling a C++ `static_cast<int64_t>` applied
to a real-valued expression. -/
def truncQ (q : ℚ) : ℤ := if 0 ≤ q then ⌊q⌋ else ⌈q⌉

/-- Model of asr::VadConfig (include/asr/vad.h).  The float fields are
modelled as exact rationals; `model_path` is omitted (it only names the
external ONNX graph). -/
structure VadConfig where
  threshold : ℚ
  min_silence_duration : ℚ
  min_speech_duration : ℚ
  max_speech_duration : ℚ
  sample_rate : ℕ
  window_size : ℕ
  context_size : ℕ
deriving DecidableEq

/-- `min_silence_samples` as computed in accept_waveform (vad.cpp 97-98). -/
def VadConfig.minSilenceSamples (c : VadConfig) : ℤ :=
  truncQ (c.min_silence_duration * (c.sample_rate : ℚ))

/-- `max_speech_samples` as computed in accept_waveform (vad.cpp 99-100). -/
def VadConfig.maxSpeechSamples (c : VadConfig) : ℤ :=
  truncQ (c.max_speech_duration * (c.sample_rate : ℚ))

/-- The neural VAD graph (silero), an external collaborator: a pure function
of the inference inputs, namely the `[context | window]` input buffer and the
hidden state (vad.cpp 45-87).  `prob` is the emitted probability, `next` the
new hidden state. -/
structure VadModel where
  prob : List ℚ → List ℚ → ℚ
  next : List ℚ → List ℚ → List ℚ

/-- Model of asr::SpeechSegment: an owned sequence of float samples. -/
structure SpeechSegment where
  samples : List ℚ
deriving DecidableEq

/-- Size of the VAD hidden state: shape (2, 1, 128) (vad.h kStateSize). -/
def kStateSize : ℕ := 2 * 1 * 128

/-- Model of the VoiceActivityDetector's mutable state (vad.h 63-78):
the segmentation state machine fields, the ready FIFO (`segments_`, front
of the list = front of the deque), and the inference context / hidden
state buffers. -/
structure VadState where
  in_speech : Bool
  silence_samples : ℤ
  speech_start_samples : ℤ
  speech_buf : List ℚ
  segments : List SpeechSegment
  context : List ℚ
  hidden : List ℚ
deriving DecidableEq

/-- Constructor state of the VoiceActivityDetector (vad.cpp 14-43):
all counters zero, buffers empty, context and hidden state zero-filled. -/
def vad_init (c : VadConfig) : VadState :=
  { in_speech := false
    silence_samples := 0
    speech_start_samples := 0
    speech_buf := []
    segments := []
    context := List.replicate c.context_size 0
    hidden := List.replicate kStateSize 0 }

/-- Model of VoiceActivityDetector::infer (vad.cpp 45-87): build the input
`[context | samples]`, invoke the graph, take the new hidden state from the
output, and set the context to the last `context_size` samples of the
current window. -/
def infer (M : VadModel) (c : VadConfig) (s : VadState) (samples : List ℚ) :
    ℚ × VadState :=
  let input := s.context ++ samples
  let p := M.prob input s.hidden
  let h := M.next input s.hidden
  (p, { s with hidden := h, context := samples.drop (c.window_size - c.context_size) })

/-- Model of VoiceActivityDetector::finalize_segment (vad.cpp 133-165):
empty accumulator resets the state machine; an accumulated duration below
`min_speech_duration` is discarded; otherwise the accumulator becomes a
SpeechSegment appended to the ready FIFO. -/
def finalize_segment (c : VadConfig) (s : VadState) : VadState :=
  if s.speech_buf.isEmpty then
    { s with in_speech := false, silence_samples := 0, speech_start_samples := 0 }
  else if (s.speech_buf.length : ℚ) / (c.sample_rate : ℚ) < c.min_speech_duration then
    { s with in_speech := false, silence_samples := 0, speech_start_samples := 0,
             speech_buf := [] }
  else
    { s with segments := s.segments ++ [{ samples := s.speech_buf }],
             in_speech := false, silence_samples := 0, speech_start_samples := 0,
             speech_buf := [] }

/-- Model of VoiceActivityDetector::accept_waveform (vad.cpp 89-131).
A wrong-length input makes the C++ throw `std::invalid_argument` before any
mutation; here that case returns the state unchanged. -/
def accept_waveform (M : VadModel) (c : VadConfig) (samples : List ℚ)
    (s : VadState) : VadState :=
  if samples.length ≠ c.window_size then s
  else
    let pr := infer M c s samples
    let p := pr.1
    let s1 := pr.2
    if c.threshold ≤ p then
      let s2 := if s1.in_speech then s1
                else { s1 with in_speech := true, speech_start_samples := 0,
                               speech_buf := [] }
      let s3 := { s2 with silence_samples := 0,
                          speech_buf := s2.speech_buf ++ samples,
                          speech_start_samples :=
                            s2.speech_start_samples + (c.window_size : ℤ) }
      if c.maxSpeechSamples ≤ s3.speech_start_samples then finalize_segment c s3
      else s3
    else
      if s1.in_speech then
        let s2 := { s1 with silence_samples := s1.silence_samples + (c.window_size : ℤ),
                            speech_buf := s1.speech_buf ++ samples,
                            speech_start_samples :=
                              s1.speech_start_samples + (c.window_size : ℤ) }
        if c.minSilenceSamples ≤ s2.silence_samples then finalize_segment c s2
        else s2
      else s1

/-- Model of VoiceActivityDetector::flush (vad.cpp 183-187). -/
def vad_flush (c : VadConfig) (s : VadState) : VadState :=
  if s.in_speech ∧ ¬ s.speech_buf.isEmpty then finalize_segment c s else s

/-- Model of VoiceActivityDetector::reset (vad.cpp 189-197): every field is
overwritten, so the result does not depend on the previous state. -/
def vad_reset (c : VadConfig) (_s : VadState) : VadState :=
  { in_speech := false
    silence_samples := 0
    speech_start_samples := 0
    speech_buf := []
    segments := []
    context := List.replicate c.context_size 0
    hidden := List.replicate kStateSize 0 }

/-- Messages emitted by the session (handler.h OutMessage).  The pre-rendered
JSON payload is a function of these fields and is not modelled. -/
inductive OutMessage where
  | interim (duration rms : ℚ) (is_speech : Bool)
  | final (text : String) (duration : ℚ)
  | done
deriving DecidableEq

/-- Session lifecycle metric events (ASRMetrics session_started /
session_ended); the other sink calls are out-of-scope plumbing. -/
inductive MetricEvent where
  | session_started
  | session_ended
deriving DecidableEq

/-- The fields of asr::Config (include/asr/config.h) that the session core
reads. -/
structure Config where
  sample_rate : ℕ
  vad_window_size : ℕ
  min_audio_sec : ℚ
  max_audio_sec : ℚ
deriving DecidableEq

/-- Model of the ASRSession mutable state (handler.h 73-93).  The wall-clock
fields (start_ts_, first_result_ts_, decode_sec_, preprocess_sec_) are real
time and not modelled; `segments` is the `segments_` counter. -/
structure SessionState where
  vad : VadState
  pending : List ℚ
  has_first_result : Bool
  segments : ℕ
  silence_segments : ℕ
  audio_samples : ℕ
  total_samples_received : ℕ
  session_active : Bool
  max_duration_exceeded : Bool
  chunks : ℕ
  bytes : ℕ
deriving DecidableEq

/-- The session's external collaborators and configuration: the VAD graph,
the recognizer (sherpa-onnx, a pure function from a segment's samples to its
decoded text), the float square root used by compute_rms, and the two config
records.  In the server (server.cpp 234-241) `vcfg` is built from `cfg` with
`window_size = vad_window_size` and the same `sample_rate`. -/
structure Env where
  M : VadModel
  recognize : List ℚ → String
  sqrt : ℚ → ℚ
  cfg : Config
  vcfg : VadConfig

/-- Sum of squares of a sample list. -/
def sumSq (l : List ℚ) : ℚ := (l.map (fun x => x * x)).sum

/-- Model of compute_rms (audio.cpp 149-160): 0 on empty input, otherwise
the square root of the mean square. -/
def compute_rms (sq : ℚ → ℚ) (samples : List ℚ) : ℚ :=
  if samples.isEmpty then 0 else sq (sumSq samples / (samples.length : ℚ))

/-- Model of ASRSession::reset_session (handler.cpp 114-127): zero the
per-request counters and clear the max-duration flag; the VAD, pending
buffer and session_active flag are not touched here. -/
def reset_session (s : SessionState) : SessionState :=
  { s with has_first_result := false, segments := 0, silence_segments := 0,
           audio_samples := 0, total_samples_received := 0,
           max_duration_exceeded := false, chunks := 0, bytes := 0 }

/-- The drain loop of ASRSession::process_vad_segments (handler.cpp 129-173),
recursing over the VAD's ready FIFO front-first: a segment shorter than
`min_audio_sec` is counted as silence; otherwise it is recognized, and an
empty text counts as silence while a non-empty text emits a `final`. -/
def drain_segments (e : Env) :
    List SpeechSegment → SessionState → List OutMessage →
      SessionState × List OutMessage
  | [], s, msgs => (s, msgs)
  | seg :: rest, s, msgs =>
    let audio_sec : ℚ := (seg.samples.length : ℚ) / (e.cfg.sample_rate : ℚ)
    if audio_sec < e.cfg.min_audio_sec then
      drain_segments e rest { s with silence_segments := s.silence_segments + 1 } msgs
    else
      let text := e.recognize seg.samples
      let s1 := { s with audio_samples := s.audio_samples + seg.samples.length }
      let s2 := if s1.has_first_result then s1 else { s1 with has_first_result := true }
      if text = "" then
        drain_segments e rest { s2 with silence_segments := s2.silence_segments + 1 } msgs
      else
        drain_segments e rest { s2 with segments := s2.segments + 1 }
          (msgs ++ [OutMessage.final text audio_sec])

/-- ASRSession::process_vad_segments: drain the whole VAD FIFO. -/
def process_vad_segments (e : Env) (s : SessionState) (msgs : List OutMessage) :
    SessionState × List OutMessage :=
  drain_segments e s.vad.segments { s with vad := { s.vad with segments := [] } } msgs

/-- Model of std::vector::resize(n, v): truncate or pad with v to length n. -/
def resizeList (l : List ℚ) (n : ℕ) (v : ℚ) : List ℚ :=
  l.take n ++ List.replicate (n - l.length) v

/-- Model of ASRSession::flush_pending (handler.cpp 175-182): zero-pad a
non-empty pending buffer to window size, feed it to the VAD and clear it;
then flush the VAD. -/
def flush_pending (e : Env) (s : SessionState) : SessionState :=
  let s1 :=
    if s.pending.isEmpty then s
    else { s with vad := accept_waveform e.M e.vcfg
                           (resizeList s.pending e.cfg.vad_window_size 0) s.vad,
                  pending := [] }
  { s1 with vad := vad_flush e.vcfg s1.vad }

/-- Model of ASRSession::finalize_session (handler.cpp 184-213): append the
`done` message, emit session_ended if the session was active, reset the VAD,
clear pending, and reset the per-request counters. -/
def finalize_session (e : Env) (s : SessionState) (msgs : List OutMessage) :
    SessionState × List OutMessage × List MetricEvent :=
  let msgs1 := msgs ++ [OutMessage.done]
  let evs := if s.session_active then [MetricEvent.session_ended] else []
  let s1 := { s with session_active := false }
  let s2 := { s1 with vad := vad_reset e.vcfg s1.vad, pending := [] }
  (reset_session s2, msgs1, evs)

/-- The windowing loop of on_audio (handler.cpp 241-254): copy incoming
samples into pending up to window size; feed the VAD and clear pending at
each full window.  Each iteration consumes `min(window - pending, remaining)`
samples, which is at least 1 whenever `pending.length < window_size`, so a
fuel of `samples.length` makes the model total and equal to the C++ loop on
all states reachable under the session invariant. -/
def feed_loop (e : Env) : ℕ → List ℚ → List ℚ → VadState → List ℚ × VadState
  | 0, _, pending, vad => (pending, vad)
  | fuel + 1, samples, pending, vad =>
    if samples.isEmpty then (pending, vad)
    else
      let to_copy := min (e.cfg.vad_window_size - pending.length) samples.length
      let pending1 := pending ++ samples.take to_copy
      let rest := samples.drop to_copy
      if pending1.length = e.cfg.vad_window_size then
        feed_loop e fuel rest [] (accept_waveform e.M e.vcfg pending1 vad)
      else
        feed_loop e fuel rest pending1 vad

/-- Model of ASRSession::on_audio (handler.cpp 217-281).  Returns the new
state, the messages of this call, and the metric events of this call. -/
def on_audio_call (e : Env) (samples : List ℚ) (s : SessionState) :
    SessionState × List OutMessage × List MetricEvent :=
  if s.max_duration_exceeded then (s, [], [])
  else
    let evs : List MetricEvent :=
      if s.session_active then [] else [MetricEvent.session_started]
    let s1 := if s.session_active then s else { s with session_active := true }
    let s2 := { s1 with chunks := s1.chunks + 1,
                        total_samples_received :=
                          s1.total_samples_received + samples.length,
                        bytes := s1.bytes + samples.length * 4 }
    let rms := compute_rms e.sqrt samples
    let fv := feed_loop e samples.length samples s2.pending s2.vad
    let s3 := { s2 with pending := fv.1, vad := fv.2 }
    let dm := process_vad_segments e s3 []
    let s4 := dm.1
    let msgs1 :=
      if dm.2.isEmpty then
        [OutMessage.interim ((s4.total_samples_received : ℚ) / (e.cfg.sample_rate : ℚ))
          rms s4.vad.in_speech]
      else dm.2
    let received_sec : ℚ := (s4.total_samples_received : ℚ) / (e.cfg.sample_rate : ℚ)
    if e.cfg.max_audio_sec < received_sec then
      let s5 := flush_pending e s4
      let dm2 := process_vad_segments e s5 msgs1
      let fin := finalize_session e dm2.1 dm2.2
      ({ fin.1 with max_duration_exceeded := true }, fin.2.1, evs ++ fin.2.2)
    else
      (s4, msgs1, evs)

/-- Model of ASRSession::on_recognize (handler.cpp 283-297). -/
def on_recognize (e : Env) (s : SessionState) :
    SessionState × List OutMessage × List MetricEvent :=
  if s.max_duration_exceeded then ({ s with max_duration_exceeded := false }, [], [])
  else
    let s1 := flush_pending e s
    let dm := process_vad_segments e s1 []
    finalize_session e dm.1 dm.2

/-- Model of ASRSession::on_reset (handler.cpp 299-308).  on_reset emits no
messages; the returned list holds the metric events of the call. -/
def on_reset (e : Env) (s : SessionState) : SessionState × List MetricEvent :=
  let s1 := { s with max_duration_exceeded := false }
  let p :=
    if s1.session_active then ({ s1 with session_active := false }, [MetricEvent.session_ended])
    else (s1, ([] : List MetricEvent))
  let s2 := { p.1 with vad := vad_reset e.vcfg p.1.vad, pending := [] }
  (reset_session s2, p.2)

/-- Model of ASRSession::on_close (handler.cpp 310-317). -/
def on_close (s : SessionState) : SessionState × List MetricEvent :=
  if s.session_active then ({ s with session_active := false }, [MetricEvent.session_ended])
  else (s, [])

/-- The ASRSession constructor (handler.cpp 64-69): empty pending buffer,
fresh VAD, inactive session, then reset_session. -/
def session_init (e : Env) : SessionState :=
  reset_session
    { vad := vad_init e.vcfg, pending := [], has_first_result := false,
      segments := 0, silence_segments := 0, audio_samples := 0,
      total_samples_received := 0, session_active := false,
      max_duration_exceeded := false, chunks := 0, bytes := 0 }

/-- A public ASRSession entry point, for quantifying over call sequences. -/
inductive SessionCall where
  | chunk (samples : List ℚ)
  | recognize
  | reset
  | close

/-- Execute one public call, keeping only the state. -/
def step_call (e : Env) (s : SessionState) : SessionCall → SessionState
  | SessionCall.chunk samples => (on_audio_call e samples s).1
  | SessionCall.recognize => (on_recognize e s).1
  | SessionCall.reset => (on_reset e s).1
  | SessionCall.close => (on_close s).1

/-- Execute a sequence of public calls. -/
def run_calls (e : Env) : List SessionCall → SessionState → SessionState
  | [], s => s
  | c :: cs, s => run_calls e cs (step_call e s c)

/-- Execute a sequence of on_audio calls, concatenating the emitted
messages in order. -/
def run_audio_calls (e : Env) : List (List ℚ) → SessionState →
    SessionState × List OutMessage
  | [], s => (s, [])
  | c :: cs, s =>
    let r := on_audio_call e c s
    let r1 := run_audio_calls e cs r.1
    (r1.1, r.2.1 ++ r1.2)

/-- Recognize the `done` message. -/
def is_done : OutMessage → Bool
  | OutMessage.done => true
  | _ => false

/-- Number of `done` messages in a message list. -/
def done_count (msgs : List OutMessage) : ℕ := msgs.countP is_done

/-- A VAD entry point, for quantifying over VAD call sequences. -/
inductive VadCall where
  | accept (w : List ℚ)
  | flush

/-- Execute a sequence of VAD calls. -/
def run_vad (M : VadModel) (c : VadConfig) : List VadCall → VadState → VadState
  | [], s => s
  | VadCall.accept w :: rest, s => run_vad M c rest (accept_waveform M c w s)
  | VadCall.flush :: rest, s => run_vad M c rest (vad_flush c s)

/-- One slot of the recognizer pool (recognizer.h): the opaque sherpa-onnx
handle is external; only the `in_use` flag is modelled. -/
structure Slot where
  in_use : Bool
deriving DecidableEq

/-- The predicate scan of Recognizer::recognize (recognizer.cpp 85-94):
index of the first slot not in use, scanning from the front. -/
def find_free : List Slot → Option ℕ
  | [] => none
  | sl :: rest => if sl.in_use then (find_free rest).map (fun j => j + 1) else some 0

/-- Set the `in_use` flag of slot `i`. -/
def set_in_use (slots : List Slot) (i : ℕ) (b : Bool) : List Slot :=
  slots.set i { in_use := b }

/-- Whitespace as trimmed by Recognizer::recognize (" \t\n\r"). -/
def is_ws (ch : Char) : Bool :=
  (ch == ' ') || (ch == '\t') || (ch == '\n') || (ch == '\r')

/-- The in-place ASCII-whitespace trim of Recognizer::recognize
(recognizer.cpp 117-128): drop trailing then leading whitespace. -/
def trim_ws (s : String) : String :=
  (((s.toList.reverse.dropWhile is_ws).reverse).dropWhile is_ws).asString

/-- Model of Recognizer::recognize (recognizer.cpp 75-143).  Stream creation
and decoding are external (sherpa-onnx): `stream_ok` tells whether
SherpaOnnxCreateOfflineStream succeeds and `decoded` is the raw result text.
When no slot is free the C++ caller blocks on the condition variable until
one is released; that case is modelled as returning with the pool unchanged
(it is excluded by hypothesis wherever it matters). -/
def pool_recognize (slots : List Slot) (aud : List ℚ) (stream_ok : Bool)
    (decoded : String) : String × List Slot :=
  if aud.isEmpty then ("", slots)
  else
    match find_free slots with
    | none => ("", slots)
    | some i =>
      let acquired := set_in_use slots i true
      if stream_ok then (trim_ws decoded, set_in_use acquired i false)
      else ("", set_in_use acquired i false)

/-- C++ lround: round to nearest integer, halfway cases away from zero. -/
def lroundQ (q : ℚ) : ℤ := if 0 ≤ q then ⌊q + 1 / 2⌋ else ⌈q - 1 / 2⌉

/-- The buffer-sizing step of StreamResampler::process (audio.cpp 97-101):
`needed = lround(input.size() * ratio) + 16`; the buffer grows to `needed`
when smaller and never shrinks.  The sinc kernel itself (src_process) is
external and does not change the buffer size. -/
def process_buf_size (buf_size input_len : ℕ) (r : ℚ) : ℕ :=
  let needed := (lroundQ ((input_len : ℚ) * r) + 16).toNat
  if buf_size < needed then needed else buf_size

/-- A WAV file as seen after the external dr_wav byte parser (out of scope
per the spec): channel count, declared sample rate, and the PCM frames
decoded to float.  `totalPCMFrameCount` is the length of `samples`. -/
structure WavInfo where
  channels : ℕ
  sample_rate : ℕ
  samples : List ℚ
deriving DecidableEq

/-- The AudioError cases raised by decode_wav (audio.cpp 16-78). -/
inductive AudioErrKind where
  | empty_or_invalid
  | not_mono (channels : ℕ)
  | no_frames
  | too_long (frames : ℕ)
  | resample_failed
deriving DecidableEq

/-- Result record of decode_wav (audio.h AudioData). -/
structure AudioData where
  samples : List ℚ
  duration : ℚ
deriving DecidableEq

/-- Model of decode_wav (audio.cpp 16-78).  The raw input bytes are
modelled by the dr_wav parse outcome (`none` for empty or unparseable data);
`rs` models the external libsamplerate src_simple kernel (given the samples
and the rate ratio target/input); dr_wav is modelled as reading all frames. -/
def decode_wav : Option WavInfo → (List ℚ → ℚ → List ℚ) → ℕ →
    Except AudioErrKind AudioData
  | none, _, _ => Except.error AudioErrKind.empty_or_invalid
  | some w, rs, target_rate =>
    if w.channels ≠ 1 then Except.error (AudioErrKind.not_mono w.channels)
    else if w.samples.length = 0 then Except.error AudioErrKind.no_frames
    else if 48000 * 3600 < w.samples.length then
      Except.error (AudioErrKind.too_long w.samples.length)
    else
      let out :=
        if w.sample_rate ≠ target_rate then
          rs w.samples ((target_rate : ℚ) / (w.sample_rate : ℚ))
        else w.samples
      Except.ok { samples := out, duration := (out.length : ℚ) / (target_rate : ℚ) }

/-- A mono WAV one frame over the one-hour limit, for the C9 witness. -/
def egWav : WavInfo :=
  { channels := 1, sample_rate := 48000,
    samples := List.replicate (48000 * 3600 + 1) 0 }

/-- Per-connection WebSocket context (server.cpp WsConnectionContext):
whether a sample-rate announcement was accepted, and the resampler
configuration (input rate, model rate) if one was created. -/
structure WsCtx where
  sample_rate_received : Bool
  resampler : Option (ℕ × ℕ)
deriving DecidableEq

/-- A client text frame, as seen after the external JSON parse (nlohmann,
out of scope): `braced_sample_rate n` is a message starting with a brace
whose JSON carries an integer "sample_rate" field of value n;
`braced_other` starts with a brace but yields no usable sample_rate field
(no such key, non-integer value, or unparseable JSON); `plain s` is any
other text (commands and unknown messages). -/
inductive TextMsg where
  | braced_sample_rate (n : ℤ)
  | braced_other
  | plain (s : String)
deriving DecidableEq

/-- Which branch of the handler consumed a text message. -/
inductive HandledAs where
  | announcement
  | command
deriving DecidableEq

/-- Fresh connection context (server.cpp handleNewConnection). -/
def ws_init : WsCtx := { sample_rate_received := false, resampler := none }

/-- Model of the text-message branch of WsController::handleNewMessage
(server.cpp 109-155).  An out-of-range announcement is logged and ignored;
a valid one sets the flag and creates the resampler configuration exactly
when the announced rate differs from the model rate.  Once the flag is set,
a braced message skips the announcement branch and falls through to
command handling, where (not being RECOGNIZE or RESET) it is ignored;
RECOGNIZE and RESET flush the resampler's filter state but keep its
configuration, so the context is unchanged. -/
def handle_text (model_rate : ℕ) (ctx : WsCtx) (m : TextMsg) : WsCtx × HandledAs :=
  match m with
  | TextMsg.braced_sample_rate n =>
    if ctx.sample_rate_received then (ctx, HandledAs.command)
    else if n < 8000 ∨ 192000 < n then (ctx, HandledAs.announcement)
    else
      ({ sample_rate_received := true,
         resampler := if n ≠ (model_rate : ℤ) then some (n.toNat, model_rate) else none },
       HandledAs.announcement)
  | TextMsg.braced_other => (ctx, HandledAs.command)
  | TextMsg.plain _ => (ctx, HandledAs.command)

/-- Execute a sequence of text messages on a connection. -/
def run_ws (model_rate : ℕ) : List TextMsg → WsCtx → WsCtx
  | [], ctx => ctx
  | m :: ms, ctx => run_ws model_rate ms (handle_text model_rate ctx m).1

/-- Example VAD graph for concrete runs: the emitted probability is the last
sample of the inference input, so test windows can choose the classification,
and the hidden state is passed through unchanged. -/
def egVadModel : VadModel :=
  { prob := fun inp _ => inp.getLast?.getD 0, next := fun _ h => h }

/-- Example VAD configuration for concrete runs (tiny window and rate so
traces stay small); satisfies all constructor validations. -/
def egVcfg : VadConfig :=
  { threshold := 1 / 2, min_silence_duration := 1 / 2, min_speech_duration := 1 / 4,
    max_speech_duration := 1, sample_rate := 4, window_size := 2, context_size := 0 }

/-- Example session configuration matching egVcfg, wired the way the server
wires Config to VadConfig. -/
def egCfg : Config :=
  { sample_rate := 4, vad_window_size := 2, min_audio_sec := 0, max_audio_sec := 10 }

/-- Example environment for concrete session runs. -/
def egEnv : Env :=
  { M := egVadModel, recognize := fun _ => "hi", sqrt := fun q => q,
    cfg := egCfg, vcfg := egVcfg }

/-- VAD configuration witnessing that `max_speech_duration > min_speech_duration`
alone does not make a force-split emit a segment: min_silence is large, so a
silence window inside speech pushes the run counter past max_speech_samples
without triggering any finalize. -/
def cexVcfg : VadConfig :=
  { threshold := 1 / 2, min_silence_duration := 10, min_speech_duration := 1 / 4,
    max_speech_duration := 11 / 10, sample_rate := 4, window_size := 2, context_size := 0 }

/-- All segments in a list meet the `min_speech_duration` lower bound. -/
def segs_min_ok (c : VadConfig) (l : List SpeechSegment) : Prop :=
  ∀ seg ∈ l, c.min_speech_duration ≤ (seg.samples.length : ℚ) / (c.sample_rate : ℚ)

section

attribute [local semireducible] Rat.add Rat.mul Rat.inv Rat.sub

theorem done_count_nil : done_count [] = 0 := rfl

theorem done_count_append (a b : List OutMessage) :
    done_count (a ++ b) = done_count a + done_count b := by
  simp [done_count]

theorem done_count_interim (d r : ℚ) (b : Bool) :
    done_count [OutMessage.interim d r b] = 0 := rfl

theorem done_count_one : done_count [OutMessage.done] = 1 := rfl

theorem done_count_ne_nil (msgs : List OutMessage) (h : done_count msgs = 1) :
    msgs ≠ [] := by
  intro hnil
  rw [hnil] at h
  exact absurd h (by simp [done_count])

theorem getLast?_append_right {α : Type} (l1 l2 : List α) (h : l2 ≠ []) :
    (l1 ++ l2).getLast? = l2.getLast? := by
  rw [List.getLast?_append]
  rcases hx : l2.getLast? with _ | x
  · exact absurd (List.getLast?_eq_none_iff.mp hx) h
  · rfl

theorem find_free_set_false (slots : List Slot) (i : ℕ)
    (h : find_free slots = some i) :
    slots.set i { in_use := false } = slots := by
  induction slots generalizing i with
  | nil => exact absurd h (by simp [find_free])
  | cons sl rest ih =>
    unfold find_free at h
    by_cases hu : sl.in_use
    · rw [if_pos hu] at h
      rcases Option.map_eq_some'.mp h with ⟨j, hj, rfl⟩
      simpa [List.set] using ih j hj
    · rw [if_neg hu] at h
      cases h
      cases sl with
      | mk u =>
        simp only [Bool.not_eq_true] at hu
        subst hu
        rfl

/-- Claim C6: when the per-call inference stream cannot be created,
Recognizer::recognize returns the empty string and sets the acquired slot's
in_use flag back to false before returning, so the pool is unchanged by the
failed call. -/
theorem recognize_stream_fail_pool_unchanged (slots : List Slot) (aud : List ℚ)
    (decoded : String) (i : ℕ) (hfree : find_free slots = some i) (hne : aud ≠ []) :
    pool_recognize slots aud false decoded = ("", slots) := by
  unfold pool_recognize
  rw [if_neg (by simpa [List.isEmpty_iff] using hne), hfree]
  simp only [Bool.false_eq_true, if_false, set_in_use, List.set_set]
  rw [find_free_set_false slots i hfree]

/-- Witness for C6 at a concrete pool with a busy slot 0 and a free slot 1. -/
theorem recognize_stream_fail_pool_unchanged_witness :
    find_free [{ in_use := true }, { in_use := false }] = some 1 ∧
    ([(1 : ℚ)] ≠ ([] : List ℚ)) ∧
    pool_recognize [{ in_use := true }, { in_use := false }] [(1 : ℚ)] false "x" =
      ("", [{ in_use := true }, { in_use := false }]) :=
  ⟨by decide, by decide,
    recognize_stream_fail_pool_unchanged _ _ "x" 1 (by decide) (by decide)⟩

/-- Claim C7 counterexample: with ratio 16000/48000 = 1/3 and one input
sample on a fresh resampler, the buffer is resized to lround(1/3)+16 = 16,
which is strictly below the claimed ceil(1/3)+16 = 17. -/
theorem process_buf_size_cex :
    process_buf_size 0 1 ((16000 : ℚ) / (48000 : ℚ)) <
      (⌈(1 : ℚ) * ((16000 : ℚ) / (48000 : ℚ))⌉ + 16).toNat := by
  decide

/-- Claim C7 (amended): after process, the output buffer size is at least
lround(len(input) * ratio) + 16 — rounding to nearest, half away from zero,
as lround does — and the buffer never shrinks. -/
theorem process_buf_size_lround (buf_size input_len : ℕ) (r : ℚ) :
    (lroundQ ((input_len : ℚ) * r) + 16).toNat ≤ process_buf_size buf_size input_len r ∧
    buf_size ≤ process_buf_size buf_size input_len r := by
  simp only [process_buf_size]
  constructor
  · split
    · exact le_rfl
    · omega
  · split
    · omega
    · exact le_rfl

/-- Claim C9: decode_wav rejects every well-formed mono WAV whose PCM frame
count exceeds the fixed one-hour-at-48kHz limit of 48000*3600 frames,
returning an AudioError (too_long) and no samples; the upload-size limit does
not enter decode_wav at all. -/
theorem decode_wav_too_long (w : WavInfo) (rs : List ℚ → ℚ → List ℚ)
    (target_rate : ℕ) (hmono : w.channels = 1)
    (hlong : 48000 * 3600 < w.samples.length) :
    decode_wav (some w) rs target_rate =
      Except.error (AudioErrKind.too_long w.samples.length) := by
  simp only [decode_wav]
  rw [if_neg (by simp [hmono]), if_neg (by omega), if_pos hlong]

/-- Witness for C9: a mono WAV with exactly one frame over the limit. -/
theorem decode_wav_too_long_witness :
    egWav.channels = 1 ∧
    48000 * 3600 < egWav.samples.length ∧
    decode_wav (some egWav) (fun l _ => l) 16000 =
      Except.error (AudioErrKind.too_long (48000 * 3600 + 1)) := by
  have hlen : egWav.samples.length = 48000 * 3600 + 1 := List.length_replicate _ _
  refine ⟨rfl, by rw [hlen]; omega, ?_⟩
  have h := decode_wav_too_long egWav (fun l _ => l) 16000 rfl (by rw [hlen]; omega)
  rw [hlen] at h
  exact h

/-- Claim C10: on one connection, announcements are only parsed while the
sample_rate_received flag is still unset, and that flag together with the
resampler configuration is written only by the first valid announcement:
before it the resampler is absent, and once the flag is set every further
text message (announcements included) takes the command path and leaves the
context — in particular the resampler configuration — unchanged. -/
theorem ws_first_sample_rate_only (model_rate : ℕ) :
    (∀ msgs : List TextMsg,
        (run_ws model_rate msgs ws_init).sample_rate_received = false →
          (run_ws model_rate msgs ws_init).resampler = none) ∧
    (∀ (ctx : WsCtx) (m : TextMsg), ctx.sample_rate_received = true →
        handle_text model_rate ctx m = (ctx, HandledAs.command)) := by
  constructor
  · have hstep : ∀ (ctx : WsCtx) (m : TextMsg),
        (ctx.sample_rate_received = false → ctx.resampler = none) →
        ((handle_text model_rate ctx m).1.sample_rate_received = false →
          (handle_text model_rate ctx m).1.resampler = none) := by
      intro ctx m hinv
      cases m with
      | braced_sample_rate n =>
        simp only [handle_text]
        by_cases hr : ctx.sample_rate_received
        · simp [hr]
        · rw [if_neg hr]
          split
          · exact hinv
          · intro hfalse
            exact absurd hfalse (by simp)
      | braced_other => exact hinv
      | plain s => exact hinv
    have hrun : ∀ (msgs : List TextMsg) (ctx : WsCtx),
        (ctx.sample_rate_received = false → ctx.resampler = none) →
        ((run_ws model_rate msgs ctx).sample_rate_received = false →
          (run_ws model_rate msgs ctx).resampler = none) := by
      intro msgs
      induction msgs with
      | nil => intro ctx hinv; exact hinv
      | cons m rest ih =>
        intro ctx hinv
        exact ih _ (hstep ctx m hinv)
    intro msgs
    exact hrun msgs ws_init (fun _ => rfl)
  · intro ctx m h
    cases m with
    | braced_sample_rate n => simp [handle_text, h]
    | braced_other => rfl
    | plain s => rfl

theorem finalize_segment_min (c : VadConfig) (s : VadState)
    (h : segs_min_ok c s.segments) :
    segs_min_ok c (finalize_segment c s).segments := by
  unfold finalize_segment
  split
  · exact h
  · split
    next => exact h
    next hge =>
      intro seg hseg
      rcases List.mem_append.mp hseg with hmem | hmem
      · exact h seg hmem
      · have hs : seg = { samples := s.speech_buf } := List.mem_singleton.mp hmem
        subst hs
        exact le_of_not_lt hge

theorem accept_waveform_min (M : VadModel) (c : VadConfig) (w : List ℚ)
    (s : VadState) (h : segs_min_ok c s.segments) :
    segs_min_ok c (accept_waveform M c w s).segments := by
  simp only [accept_waveform, infer]
  repeat' split
  all_goals first
    | exact h
    | (apply finalize_segment_min; exact h)

theorem vad_flush_min (c : VadConfig) (s : VadState)
    (h : segs_min_ok c s.segments) :
    segs_min_ok c (vad_flush c s).segments := by
  unfold vad_flush
  split
  · exact finalize_segment_min c s h
  · exact h

theorem run_vad_min (M : VadModel) (c : VadConfig) (ops : List VadCall) :
    ∀ s : VadState, segs_min_ok c s.segments →
      segs_min_ok c (run_vad M c ops s).segments := by
  induction ops with
  | nil => intro s h; exact h
  | cons op rest ih =>
    intro s h
    cases op with
    | accept w => exact ih _ (accept_waveform_min M c w s h)
    | flush => exact ih _ (vad_flush_min c s h)

/-- Claim C3: over any sequence of accept_waveform and flush calls from a
fresh VAD, every SpeechSegment in the ready FIFO has duration
samples.size / sample_rate of at least min_speech_duration; shorter
accumulated runs are discarded rather than enqueued. -/
theorem vad_segment_min_speech (M : VadModel) (c : VadConfig) (ops : List VadCall)
    (seg : SpeechSegment)
    (hmem : seg ∈ (run_vad M c ops (vad_init c)).segments) :
    c.min_speech_duration ≤ (seg.samples.length : ℚ) / (c.sample_rate : ℚ) :=
  run_vad_min M c ops (vad_init c) (fun x hx => absurd hx (by simp [vad_init])) seg hmem

/-- Witness for C3: a concrete run that enqueues one segment of duration 1
against a min_speech_duration of 1/4. -/
theorem vad_segment_min_speech_witness :
    ({ samples := [0, 1, 0, 0] } : SpeechSegment) ∈
      (run_vad egVadModel egVcfg [VadCall.accept [0, 1], VadCall.accept [0, 0]]
        (vad_init egVcfg)).segments ∧
    egVcfg.min_speech_duration ≤
      ((({ samples := [0, 1, 0, 0] } : SpeechSegment).samples.length : ℚ) /
        (egVcfg.sample_rate : ℚ)) :=
  ⟨by decide, vad_segment_min_speech egVadModel egVcfg
      [VadCall.accept [0, 1], VadCall.accept [0, 0]] _ (by decide)⟩

/-- Claim C4 counterexample: with cexVcfg, where max_speech_duration (11/10)
exceeds min_speech_duration (1/4), a speech window followed by a silence
window drives the speech-run counter to max_speech_samples while in_speech,
yet that call appends nothing to the ready FIFO and leaves in_speech true on
return: the force-split check only runs in the speech-classified branch. -/
theorem vad_force_split_cex :
    cexVcfg.min_speech_duration < cexVcfg.max_speech_duration ∧
    (run_vad egVadModel cexVcfg [VadCall.accept [0, 1], VadCall.accept [5, 0]]
        (vad_init cexVcfg)).in_speech = true ∧
    cexVcfg.maxSpeechSamples ≤
      (run_vad egVadModel cexVcfg [VadCall.accept [0, 1], VadCall.accept [5, 0]]
        (vad_init cexVcfg)).speech_start_samples ∧
    (run_vad egVadModel cexVcfg [VadCall.accept [0, 1], VadCall.accept [5, 0]]
        (vad_init cexVcfg)).segments = [] := by
  decide

theorem finalize_segment_push (c : VadConfig) (s : VadState)
    (hne : s.speech_buf.isEmpty = false)
    (hmin : c.min_speech_duration ≤ (s.speech_buf.length : ℚ) / (c.sample_rate : ℚ)) :
    finalize_segment c s =
      { s with segments := s.segments ++ [{ samples := s.speech_buf }],
               in_speech := false, silence_samples := 0, speech_start_samples := 0,
               speech_buf := [] } := by
  unfold finalize_segment
  rw [if_neg (by simp [hne]), if_neg (not_lt.mpr hmin)]

/-- Claim C4 (amended): for an accept_waveform call whose window is
classified as speech (probability at or above threshold) and in which the
incremented speech-run counter reaches max_speech_samples, if the
configuration satisfies min_speech_duration * sample_rate at most
max_speech_samples (which max_speech_duration > min_speech_duration alone
does not give, because of the floor in max_speech_samples), then a
SpeechSegment — the accumulated run — is appended to the ready FIFO in that
same call and in_speech is false on return.  The buffer-length hypothesis is
the machine's own invariant relating the accumulator to the run counter. -/
theorem vad_force_split_amended (M : VadModel) (c : VadConfig) (w : List ℚ)
    (s : VadState)
    (hw : 0 < c.window_size)
    (hlen : w.length = c.window_size)
    (hprob : c.threshold ≤ M.prob (s.context ++ w) s.hidden)
    (hinv : s.in_speech = true → (s.speech_buf.length : ℤ) = s.speech_start_samples)
    (hreach : c.maxSpeechSamples ≤
      (if s.in_speech then s.speech_start_samples else 0) + (c.window_size : ℤ))
    (hcfg : c.min_speech_duration * (c.sample_rate : ℚ) ≤ (c.maxSpeechSamples : ℚ))
    (hrate : 0 < c.sample_rate) :
    (accept_waveform M c w s).segments =
      s.segments ++ [{ samples := (if s.in_speech then s.speech_buf else []) ++ w }] ∧
    (accept_waveform M c w s).in_speech = false := by
  have hrateQ : (0 : ℚ) < (c.sample_rate : ℚ) := by exact_mod_cast hrate
  have hguard : ¬ (w.length ≠ c.window_size) := by simp [hlen]
  have hwne : w ≠ [] := by
    intro hnil
    rw [hnil] at hlen
    simp at hlen
    omega
  have hbe : (s.speech_buf ++ w).isEmpty = false := by
    simp [List.isEmpty_iff, hwne]
  have hwbe : w.isEmpty = false := by
    simp [List.isEmpty_iff, hwne]
  by_cases hsp : s.in_speech
  · have hbuflen : (s.speech_buf.length : ℤ) = s.speech_start_samples := hinv hsp
    have hn : c.maxSpeechSamples ≤ s.speech_start_samples + (c.window_size : ℤ) := by
      simpa [hsp] using hreach
    have hlenb : ((s.speech_buf ++ w).length : ℤ) =
        s.speech_start_samples + (c.window_size : ℤ) := by
      have h1 : (s.speech_buf ++ w).length = s.speech_buf.length + w.length :=
        List.length_append _ _
      rw [h1, hlen]
      push_cast
      omega
    have hmin : c.min_speech_duration ≤
        ((s.speech_buf ++ w).length : ℚ) / (c.sample_rate : ℚ) := by
      rw [le_div_iff₀ hrateQ]
      refine le_trans hcfg ?_
      have hz : c.maxSpeechSamples ≤ ((s.speech_buf ++ w).length : ℤ) := by
        rw [hlenb]; exact hn
      exact_mod_cast hz
    have hres : accept_waveform M c w s =
        (if c.maxSpeechSamples ≤ s.speech_start_samples + (c.window_size : ℤ) then
          finalize_segment c
            { in_speech := s.in_speech,
              silence_samples := 0,
              speech_start_samples := s.speech_start_samples + (c.window_size : ℤ),
              speech_buf := s.speech_buf ++ w,
              segments := s.segments,
              context := List.drop (c.window_size - c.context_size) w,
              hidden := M.next (s.context ++ w) s.hidden }
         else
          { in_speech := s.in_speech,
            silence_samples := 0,
            speech_start_samples := s.speech_start_samples + (c.window_size : ℤ),
            speech_buf := s.speech_buf ++ w,
            segments := s.segments,
            context := List.drop (c.window_size - c.context_size) w,
            hidden := M.next (s.context ++ w) s.hidden }) := by
      simp only [accept_waveform, infer, if_neg hguard, if_pos hprob, hsp, if_true]
    rw [hres, if_pos hn, finalize_segment_push]
    · constructor
      · simp [hsp]
      · rfl
    · exact hbe
    · exact hmin
  · have hspf : s.in_speech = false := by simpa using hsp
    have hn : c.maxSpeechSamples ≤ (0 : ℤ) + (c.window_size : ℤ) := by
      simpa [hspf] using hreach
    have hlenb : ((w : List ℚ).length : ℤ) = (0 : ℤ) + (c.window_size : ℤ) := by
      rw [hlen]
      omega
    have hmin : c.min_speech_duration ≤
        ((w : List ℚ).length : ℚ) / (c.sample_rate : ℚ) := by
      rw [le_div_iff₀ hrateQ]
      refine le_trans hcfg ?_
      have hz : c.maxSpeechSamples ≤ ((w : List ℚ).length : ℤ) := by
        rw [hlenb]; exact hn
      exact_mod_cast hz
    have hres : accept_waveform M c w s =
        (if c.maxSpeechSamples ≤ (0 : ℤ) + (c.window_size : ℤ) then
          finalize_segment c
            { in_speech := true,
              silence_samples := 0,
              speech_start_samples := (0 : ℤ) + (c.window_size : ℤ),
              speech_buf := ([] : List ℚ) ++ w,
              segments := s.segments,
              context := List.drop (c.window_size - c.context_size) w,
              hidden := M.next (s.context ++ w) s.hidden }
         else
          { in_speech := true,
            silence_samples := 0,
            speech_start_samples := (0 : ℤ) + (c.window_size : ℤ),
            speech_buf := ([] : List ℚ) ++ w,
            segments := s.segments,
            context := List.drop (c.window_size - c.context_size) w,
            hidden := M.next (s.context ++ w) s.hidden }) := by
      simp only [accept_waveform, infer, if_neg hguard, if_pos hprob, hspf,
        Bool.false_eq_true, if_false]
    rw [hres, if_pos hn, finalize_segment_push]
    · constructor
      · simp [hspf]
      · rfl
    · simpa using hwbe
    · simpa using hmin

/-- Witness for C4 (amended) after one speech window under egVcfg: the next
speech window pushes the counter to max_speech_samples and the call enqueues
the accumulated run [0,1,0,1]. -/
theorem vad_force_split_amended_witness :
    (0 < egVcfg.window_size ∧
      ([(0 : ℚ), 1] : List ℚ).length = egVcfg.window_size ∧
      egVcfg.threshold ≤
        egVadModel.prob
          ((run_vad egVadModel egVcfg [VadCall.accept [0, 1]] (vad_init egVcfg)).context ++
            [(0 : ℚ), 1])
          (run_vad egVadModel egVcfg [VadCall.accept [0, 1]] (vad_init egVcfg)).hidden ∧
      egVcfg.min_speech_duration * (egVcfg.sample_rate : ℚ) ≤
        (egVcfg.maxSpeechSamples : ℚ) ∧
      0 < egVcfg.sample_rate) ∧
    (accept_waveform egVadModel egVcfg [(0 : ℚ), 1]
        (run_vad egVadModel egVcfg [VadCall.accept [0, 1]] (vad_init egVcfg))).segments =
      (run_vad egVadModel egVcfg [VadCall.accept [0, 1]] (vad_init egVcfg)).segments ++
        [{ samples :=
            (if (run_vad egVadModel egVcfg [VadCall.accept [0, 1]] (vad_init egVcfg)).in_speech
              then (run_vad egVadModel egVcfg [VadCall.accept [0, 1]] (vad_init egVcfg)).speech_buf
              else []) ++ [(0 : ℚ), 1] }] ∧
    (accept_waveform egVadModel egVcfg [(0 : ℚ), 1]
        (run_vad egVadModel egVcfg [VadCall.accept [0, 1]] (vad_init egVcfg))).in_speech =
      false := by
  refine ⟨⟨by decide, by decide, by decide, by decide, by decide⟩, ?_, ?_⟩
  · exact (vad_force_split_amended egVadModel egVcfg [(0 : ℚ), 1]
      (run_vad egVadModel egVcfg [VadCall.accept [0, 1]] (vad_init egVcfg))
      (by decide) (by decide) (by decide) (by decide) (by decide) (by decide) (by decide)).1
  · exact (vad_force_split_amended egVadModel egVcfg [(0 : ℚ), 1]
      (run_vad egVadModel egVcfg [VadCall.accept [0, 1]] (vad_init egVcfg))
      (by decide) (by decide) (by decide) (by decide) (by decide) (by decide) (by decide)).2

/-- Witness for C10: a braced non-announcement leaves the resampler absent,
and on a context with the flag set a later valid announcement is consumed by
the command path with the context unchanged. -/
theorem ws_first_sample_rate_only_witness :
    (run_ws 16000 [TextMsg.braced_other] ws_init).sample_rate_received = false ∧
    (run_ws 16000 [TextMsg.braced_other] ws_init).resampler = none ∧
    ({ sample_rate_received := true, resampler := some (44100, 16000) } : WsCtx).sample_rate_received = true ∧
    handle_text 16000 { sample_rate_received := true, resampler := some (44100, 16000) }
        (TextMsg.braced_sample_rate 48000) =
      ({ sample_rate_received := true, resampler := some (44100, 16000) }, HandledAs.command) :=
  ⟨by decide, (ws_first_sample_rate_only 16000).1 [TextMsg.braced_other] (by decide), rfl,
    (ws_first_sample_rate_only 16000).2 _ _ rfl⟩

theorem on_audio_flagged (e : Env) (samples : List ℚ) (s : SessionState)
    (h : s.max_duration_exceeded = true) :
    on_audio_call e samples s = (s, [], []) := by
  simp [on_audio_call, h]

theorem on_recognize_flagged (e : Env) (s : SessionState)
    (h : s.max_duration_exceeded = true) :
    on_recognize e s = ({ s with max_duration_exceeded := false }, [], []) := by
  simp [on_recognize, h]

/-- Claim C5: after the max_audio_sec auto-finalize has set
max_duration_exceeded, every on_audio call returns an empty message slice
and leaves the whole session state unchanged, and the next on_recognize
clears the flag and also returns an empty slice (and no metric events). -/
theorem max_duration_noop (e : Env) (samples : List ℚ) (s : SessionState)
    (h : s.max_duration_exceeded = true) :
    on_audio_call e samples s = (s, [], []) ∧
    on_recognize e s = ({ s with max_duration_exceeded := false }, [], []) :=
  ⟨on_audio_flagged e samples s h, on_recognize_flagged e s h⟩

/-- Witness for C5 on a concrete flagged state. -/
theorem max_duration_noop_witness :
    ({ session_init egEnv with max_duration_exceeded := true } : SessionState).max_duration_exceeded = true ∧
    on_audio_call egEnv [1, 2] { session_init egEnv with max_duration_exceeded := true } =
      ({ session_init egEnv with max_duration_exceeded := true }, [], []) ∧
    on_recognize egEnv { session_init egEnv with max_duration_exceeded := true } =
      ({ { session_init egEnv with max_duration_exceeded := true } with
          max_duration_exceeded := false }, [], []) :=
  ⟨rfl,
    (max_duration_noop egEnv [1, 2] { session_init egEnv with max_duration_exceeded := true } rfl).1,
    (max_duration_noop egEnv [1, 2] { session_init egEnv with max_duration_exceeded := true } rfl).2⟩

/-- Claim C8: on_reset is idempotent: a second on_reset leaves the session
state exactly as after the first and emits no metric events (on_reset never
emits messages). -/
theorem on_reset_idempotent (e : Env) (s : SessionState) :
    on_reset e (on_reset e s).1 = ((on_reset e s).1, []) := by
  cases hact : s.session_active <;>
    simp [on_reset, reset_session, vad_reset, hact]

theorem feed_loop_pending (e : Env) (hw : 0 < e.cfg.vad_window_size) :
    ∀ (fuel : ℕ) (samples pending : List ℚ) (vad : VadState),
      pending.length < e.cfg.vad_window_size →
      samples.length ≤ fuel →
      (feed_loop e fuel samples pending vad).1.length < e.cfg.vad_window_size := by
  intro fuel
  induction fuel with
  | zero =>
    intro samples pending vad hp _
    simpa [feed_loop] using hp
  | succ n ih =>
    intro samples pending vad hp hf
    simp only [feed_loop]
    split
    · exact hp
    next hne =>
      have hsne : samples ≠ [] := by simpa [List.isEmpty_iff] using hne
      have hslen : 1 ≤ samples.length := List.length_pos.mpr hsne
      split
      · apply ih
        · simpa using hw
        · simp only [List.length_drop]
          omega
      next hneq =>
        apply ih
        · simp only [List.length_append, List.length_take] at hneq ⊢
          omega
        · simp only [List.length_drop]
          omega

theorem drain_segments_frame (e : Env) (segs : List SpeechSegment) :
    ∀ (s : SessionState) (msgs : List OutMessage),
      (drain_segments e segs s msgs).1.max_duration_exceeded = s.max_duration_exceeded ∧
      (drain_segments e segs s msgs).1.session_active = s.session_active ∧
      (drain_segments e segs s msgs).1.pending = s.pending := by
  induction segs with
  | nil => intro s msgs; exact ⟨rfl, rfl, rfl⟩
  | cons seg rest ih =>
    intro s msgs
    simp only [drain_segments]
    repeat' split
    all_goals simpa using ih _ _

theorem drain_segments_done (e : Env) (segs : List SpeechSegment) :
    ∀ (s : SessionState) (msgs : List OutMessage),
      done_count (drain_segments e segs s msgs).2 = done_count msgs := by
  induction segs with
  | nil => intro s msgs; rfl
  | cons seg rest ih =>
    intro s msgs
    simp only [drain_segments]
    repeat' split
    all_goals rw [ih]
    all_goals simp [done_count, is_done]

theorem process_vad_frame (e : Env) (s : SessionState) (msgs : List OutMessage) :
    (process_vad_segments e s msgs).1.max_duration_exceeded = s.max_duration_exceeded ∧
    (process_vad_segments e s msgs).1.session_active = s.session_active ∧
    (process_vad_segments e s msgs).1.pending = s.pending :=
  drain_segments_frame e s.vad.segments { s with vad := { s.vad with segments := [] } } msgs

theorem process_vad_done (e : Env) (s : SessionState) (msgs : List OutMessage) :
    done_count (process_vad_segments e s msgs).2 = done_count msgs :=
  drain_segments_done e s.vad.segments { s with vad := { s.vad with segments := [] } } msgs

theorem flush_pending_pending (e : Env) (s : SessionState) :
    (flush_pending e s).pending = [] := by
  unfold flush_pending
  split
  next hemp => simpa [List.isEmpty_iff] using hemp
  · rfl

theorem on_audio_unflagged (e : Env) (samples : List ℚ) (s : SessionState)
    (h : s.max_duration_exceeded = false) :
    ((on_audio_call e samples s).1.max_duration_exceeded = true ∧
      done_count (on_audio_call e samples s).2.1 = 1 ∧
      (on_audio_call e samples s).2.1.getLast? = some OutMessage.done ∧
      (on_audio_call e samples s).1.pending = []) ∨
    ((on_audio_call e samples s).1.max_duration_exceeded = false ∧
      done_count (on_audio_call e samples s).2.1 = 0 ∧
      (on_audio_call e samples s).1.pending =
        (feed_loop e samples.length samples s.pending s.vad).1) := by
  cases hact : s.session_active <;>
    simp only [on_audio_call, h, Bool.false_eq_true, if_false, hact, Bool.true_eq_false,
      if_true] <;>
  · split
    · -- auto-finalize branch
      left
      refine ⟨rfl, ?_, ?_, rfl⟩
      · show done_count ((process_vad_segments e _ _).2 ++ [OutMessage.done]) = 1
        rw [done_count_append, process_vad_done]
        split
        · rfl
        · rw [process_vad_done]
          rfl
      · exact List.getLast?_concat _
    · -- no auto-finalize
      right
      refine ⟨?_, ?_, ?_⟩
      · rw [(process_vad_frame e _ _).1]
      · split
        · rfl
        · rw [process_vad_done]
          rfl
      · rw [(process_vad_frame e _ _).2.2]

theorem on_recognize_unflagged_msgs (e : Env) (s : SessionState)
    (h : s.max_duration_exceeded = false) :
    done_count (on_recognize e s).2.1 = 1 ∧
    (on_recognize e s).2.1.getLast? = some OutMessage.done := by
  simp only [on_recognize, h, Bool.false_eq_true, if_false]
  constructor
  · show done_count ((process_vad_segments e (flush_pending e s) []).2 ++
      [OutMessage.done]) = 1
    rw [done_count_append, process_vad_done]
    rfl
  · exact List.getLast?_concat _

theorem on_recognize_unflagged_pending (e : Env) (s : SessionState)
    (h : s.max_duration_exceeded = false) :
    (on_recognize e s).1.pending = [] := by
  simp only [on_recognize, h, Bool.false_eq_true, if_false]
  rfl

theorem on_reset_pending (e : Env) (s : SessionState) :
    (on_reset e s).1.pending = [] := by
  cases hact : s.session_active <;> simp [on_reset, reset_session, hact]

theorem on_close_pending (s : SessionState) :
    (on_close s).1.pending = s.pending := by
  cases hact : s.session_active <;> simp [on_close, hact]

theorem step_call_pending (e : Env) (hw : 0 < e.cfg.vad_window_size)
    (s : SessionState) (c : SessionCall)
    (hp : s.pending.length < e.cfg.vad_window_size) :
    (step_call e s c).pending.length < e.cfg.vad_window_size := by
  cases c with
  | chunk samples =>
    show (on_audio_call e samples s).1.pending.length < _
    cases hflag : s.max_duration_exceeded with
    | true =>
      rw [on_audio_flagged e samples s hflag]
      exact hp
    | false =>
      rcases on_audio_unflagged e samples s hflag with ⟨_, _, _, hpend⟩ | ⟨_, _, hpend⟩
      · rw [hpend]
        simpa using hw
      · rw [hpend]
        exact feed_loop_pending e hw samples.length samples s.pending s.vad hp le_rfl
  | recognize =>
    show (on_recognize e s).1.pending.length < _
    cases hflag : s.max_duration_exceeded with
    | true =>
      rw [on_recognize_flagged e s hflag]
      exact hp
    | false =>
      rw [on_recognize_unflagged_pending e s hflag]
      simpa using hw
  | reset =>
    show (on_reset e s).1.pending.length < _
    rw [on_reset_pending]
    simpa using hw
  | close =>
    show (on_close s).1.pending.length < _
    rw [on_close_pending]
    exact hp

/-- Claim C2: for every sequence of public ASRSession calls from a fresh
session, after each call the pending buffer is strictly shorter than the VAD
window (given the constructor-validated positive window size). -/
theorem pending_lt_window (e : Env) (hw : 0 < e.cfg.vad_window_size)
    (calls : List SessionCall) :
    (run_calls e calls (session_init e)).pending.length < e.cfg.vad_window_size := by
  have H : ∀ (cs : List SessionCall) (s : SessionState),
      s.pending.length < e.cfg.vad_window_size →
      (run_calls e cs s).pending.length < e.cfg.vad_window_size := by
    intro cs
    induction cs with
    | nil => intro s hp; exact hp
    | cons c rest ih =>
      intro s hp
      exact ih _ (step_call_pending e hw s c hp)
  exact H calls (session_init e) (by simpa [session_init, reset_session] using hw)

/-- Witness for C2 on a concrete trace mixing audio, reset and recognize. -/
theorem pending_lt_window_witness :
    0 < egEnv.cfg.vad_window_size ∧
    (run_calls egEnv
        [SessionCall.chunk [0, 0, 1], SessionCall.reset, SessionCall.chunk [1],
          SessionCall.recognize, SessionCall.close]
        (session_init egEnv)).pending.length < egEnv.cfg.vad_window_size :=
  ⟨by decide,
    pending_lt_window egEnv (by decide)
      [SessionCall.chunk [0, 0, 1], SessionCall.reset, SessionCall.chunk [1],
        SessionCall.recognize, SessionCall.close]⟩

theorem run_audio_flagged (e : Env) (cs : List (List ℚ)) (s : SessionState)
    (h : s.max_duration_exceeded = true) :
    run_audio_calls e cs s = (s, []) := by
  induction cs with
  | nil => rfl
  | cons c rest ih =>
    simp only [run_audio_calls]
    rw [on_audio_flagged e c s h]
    simpa using ih

theorem run_audio_inv (e : Env) (cs : List (List ℚ)) :
    ∀ s : SessionState, s.max_duration_exceeded = false →
      (((run_audio_calls e cs s).1.max_duration_exceeded = true ∧
          done_count (run_audio_calls e cs s).2 = 1 ∧
          (run_audio_calls e cs s).2.getLast? = some OutMessage.done) ∨
        ((run_audio_calls e cs s).1.max_duration_exceeded = false ∧
          done_count (run_audio_calls e cs s).2 = 0)) := by
  induction cs with
  | nil =>
    intro s h
    right
    exact ⟨h, rfl⟩
  | cons c rest ih =>
    intro s h
    rcases on_audio_unflagged e c s h with ⟨hf, hc, hl, _⟩ | ⟨hf, hc, _⟩
    · left
      simp only [run_audio_calls]
      rw [run_audio_flagged e rest _ hf]
      refine ⟨hf, ?_, ?_⟩
      · rw [List.append_nil, hc]
      · rw [List.append_nil]
        exact hl
    · rcases ih _ hf with ⟨hf2, hc2, hl2⟩ | ⟨hf2, hc2⟩
      · left
        simp only [run_audio_calls]
        refine ⟨hf2, ?_, ?_⟩
        · rw [done_count_append, hc, hc2]
        · rw [getLast?_append_right _ _ (done_count_ne_nil _ hc2)]
          exact hl2
      · right
        simp only [run_audio_calls]
        refine ⟨hf2, ?_⟩
        rw [done_count_append, hc, hc2]

/-- Claim C1: for every sequence of on_audio calls followed by one
on_recognize from a fresh session, the concatenation of all emitted messages
ends with a Done message and contains exactly one Done, whether the session
was closed by on_recognize itself or earlier by the max_audio_sec
auto-finalize (in which case the trailing on_recognize emits nothing). -/
theorem session_done_exactly_once (e : Env)
    (_hw : 0 < e.cfg.vad_window_size)
    (_hww : e.vcfg.window_size = e.cfg.vad_window_size)
    (chunks : List (List ℚ)) :
    done_count ((run_audio_calls e chunks (session_init e)).2 ++
        (on_recognize e (run_audio_calls e chunks (session_init e)).1).2.1) = 1 ∧
    ((run_audio_calls e chunks (session_init e)).2 ++
        (on_recognize e (run_audio_calls e chunks (session_init e)).1).2.1).getLast? =
      some OutMessage.done := by
  have h0 : (session_init e).max_duration_exceeded = false := rfl
  rcases run_audio_inv e chunks (session_init e) h0 with ⟨hf, hc, hl⟩ | ⟨hf, hc⟩
  · simp only [on_recognize_flagged e _ hf, List.append_nil]
    exact ⟨hc, hl⟩
  · have hrec := on_recognize_unflagged_msgs e _ hf
    constructor
    · rw [done_count_append, hc, hrec.1]
    · rw [getLast?_append_right _ _ (done_count_ne_nil _ hrec.1)]
      exact hrec.2

/-- Witness for C1 on a concrete one-chunk trace. -/
theorem session_done_exactly_once_witness :
    0 < egEnv.cfg.vad_window_size ∧
    egEnv.vcfg.window_size = egEnv.cfg.vad_window_size ∧
    (done_count ((run_audio_calls egEnv [[0, 0]] (session_init egEnv)).2 ++
        (on_recognize egEnv (run_audio_calls egEnv [[0, 0]] (session_init egEnv)).1).2.1) = 1 ∧
      ((run_audio_calls egEnv [[0, 0]] (session_init egEnv)).2 ++
        (on_recognize egEnv
          (run_audio_calls egEnv [[0, 0]] (session_init egEnv)).1).2.1).getLast? =
        some OutMessage.done) :=
  ⟨by decide, by decide, session_done_exactly_once egEnv (by decide) (by decide) [[0, 0]]⟩

end

end Asr
